import Mathlib

/-!
Verification of the Tolerant Edit Distance (TED) core of sopnet
(`TolerantEditDistance.cpp` / `TolerantEditDistance.h`).

The development shallowly embeds the data model and the three stages of the
TED pipeline — `extractCells`, `enumerateCellLabels`, `findBestCellLabels` —
as executable Lean functions, translated statement by statement from the
C++ source.  Labels are real-valued in the source (integers stored as
`float`, compared bit-exactly); they are modelled as `Int`.  `std::set` and
`std::map` over labels are modelled as sorted duplicate-free lists and
sorted association lists, which reproduces both the contents and the
ascending iteration order of the originals.
-/



/-- Modelled from the spec: a voxel coordinate `(x, y, z)` inside the
volume (`Cell<float>::Location` of `Cell.h`, which is not part of the
provided sources). -/

structure Location where
  x : Nat
  y : Nat
  z : Nat
deriving DecidableEq, Repr

/-- Modelled from the spec: a cell is the set of voxels sharing one
`(recLabel, gtLabel)` pair, together with the alternative reconstruction
labels collected by the tolerance enumerator (`Cell.h` is not part of the
provided sources; §3 of the spec describes the attributes).  `locations`
keeps insertion order (the source appends via `cell_t::add`);
`alternativeLabels` is a `std::set<float>`, modelled as a sorted
duplicate-free list. -/

structure Cell where
  recLabel : Int
  gtLabel : Int
  locations : List Location
  alternativeLabels : List Int
deriving DecidableEq, Repr

/-- Modelled from the spec: an image stack is a 3-D stack of 2-D label
images of identical width and height (`ImageStack.h` is not part of the
provided sources).  `size` is the number of images (the depth); a pixel of
slice `z` is read as `(images[z]) x y`. -/

structure ImageStack where
  width : Nat
  height : Nat
  images : List (Nat → Nat → Int)

/-- Number of slices of the stack (`ImageStack::size`). -/

def ImageStack.size (s : ImageStack) : Nat := s.images.length

/-- The error thrown by `extractCells` (`SizeMismatchError` of
`util/exceptions.h`). -/

inductive TedError where
  | sizeMismatch
deriving DecidableEq, Repr

/-- Insertion into a `std::set<float>`: sorted, duplicate-free. -/

def insertSorted (x : Int) : List Int → List Int
  | [] => [x]
  | y :: ys =>
      if x < y then x :: y :: ys
      else if x = y then y :: ys
      else y :: insertSorted x ys

/-- Lookup in a `std::map<float, std::set<float>>`; a missing key reads as
the empty set (the source reads through `operator[]`, which
default-constructs an empty set). -/

def pmLookup (m : List (Int × List Int)) (k : Int) : List Int :=
  match m.find? (fun p => p.1 == k) with
  | some p => p.2
  | none => []

/-- Insertion `m[k].insert(v)` into a `std::map<float, std::set<float>>`,
keeping the association list sorted by key. -/

def pmInsert (k v : Int) : List (Int × List Int) → List (Int × List Int)
  | [] => [(k, [v])]
  | p :: ps =>
      if k < p.1 then (k, [v]) :: p :: ps
      else if k = p.1 then (p.1, insertSorted v p.2) :: ps
      else p :: pmInsert k v ps

/-- The mutable state of a `TolerantEditDistance` object, restricted to the
fields read or written by `extractCells` and `enumerateCellLabels`
(header lines 502-533). -/

structure TEDState where
  cells : List Cell
  possibleGroundTruthMatches : List (Int × List Int)
  possibleReconstructionMatches : List (Int × List Int)
  groundTruthLabels : List Int
  reconstructionLabels : List Int
  width : Nat
  height : Nat
  depth : Nat
deriving DecidableEq, Repr

/-- The state of a freshly constructed `TolerantEditDistance`. -/

def initState : TEDState :=
  { cells := []
    possibleGroundTruthMatches := []
    possibleReconstructionMatches := []
    groundTruthLabels := []
    reconstructionLabels := []
    width := 0, height := 0, depth := 0 }

/-- `TolerantEditDistance::clearPossibleMatches` (source lines 348-354):
clears `_possibleGroundTruthMatches`, `_groundTruthLabels` and
`_reconstructionLabels` — and, exactly as in the source, does NOT clear
`_possibleReconstructionMatches`. -/

def clearPossibleMatches (st : TEDState) : TEDState :=
  { st with
    possibleGroundTruthMatches := []
    groundTruthLabels := []
    reconstructionLabels := [] }

/-- `TolerantEditDistance::registerPossibleMatch` (source lines 356-363). -/

def registerPossibleMatch (gtLabel recLabel : Int) (st : TEDState) : TEDState :=
  { st with
    possibleGroundTruthMatches := pmInsert gtLabel recLabel st.possibleGroundTruthMatches
    possibleReconstructionMatches := pmInsert recLabel gtLabel st.possibleReconstructionMatches
    groundTruthLabels := insertSorted gtLabel st.groundTruthLabels
    reconstructionLabels := insertSorted recLabel st.reconstructionLabels }

/-- The update `_cells[recLabel][gtLabel].add(l)` together with the two
`set...Label` calls (source lines 70-72): the nested
`std::map<float, std::map<float, cell_t>>` is modelled as one list of
cells sorted lexicographically by `(recLabel, gtLabel)`; the cell is
created on first touch. -/

def cellsAdd (r g : Int) (l : Location) : List Cell → List Cell
  | [] => [⟨r, g, [l], []⟩]
  | c :: cs =>
      if r = c.recLabel ∧ g = c.gtLabel then
        { c with locations := c.locations ++ [l] } :: cs
      else if r < c.recLabel ∨ (r = c.recLabel ∧ g < c.gtLabel) then
        ⟨r, g, [l], []⟩ :: c :: cs
      else
        c :: cellsAdd r g l cs

/-- The body of the voxel loop of `extractCells` (source lines 67-74). -/

def processVoxel (gtI recI : Nat → Nat → Int) (x y z : Nat) (st : TEDState) : TEDState :=
  let gtLabel := gtI x y
  let recLabel := recI x y
  registerPossibleMatch gtLabel recLabel
    { st with cells := cellsAdd recLabel gtLabel ⟨x, y, z⟩ st.cells }

/-- `TolerantEditDistance::extractCells` (source lines 41-85).  The two
dimension checks precede every mutation; on mismatch the state is
returned unchanged together with the thrown error.  Note that the inner
loop bounds `y` by the image WIDTH, exactly as source line 65
(`for (unsigned int y = 0; y < gt->width(); y++)`) does. -/

def extractCells (gt rec : ImageStack) (st : TEDState) : TEDState × Option TedError :=
  if gt.size ≠ rec.size then
    (st, some TedError.sizeMismatch)
  else if gt.height ≠ rec.height ∨ gt.width ≠ rec.width then
    (st, some TedError.sizeMismatch)
  else
    let st1 := clearPossibleMatches { st with cells := [] }
    let st2 := { st1 with depth := gt.size, width := gt.width, height := gt.height }
    ((List.range gt.size).foldl
      (fun s z =>
        let gtI := gt.images.getD z (fun _ _ => 0)
        let recI := rec.images.getD z (fun _ _ => 0)
        (List.range gt.width).foldl
          (fun s x =>
            (List.range gt.width).foldl
              (fun s y => processVoxel gtI recI x y z s) s) s) st2,
      none)

/-- The anisotropic squared Euclidean distance between two voxels for the
hard-coded pitch `(1, 1, 10)` of source lines 96-99: axis `k` contributes
`(pitch_k * delta_k)^2`. -/

def sqDistPitch (p q : Location) : Int :=
  ((p.x : Int) - (q.x : Int)) ^ 2
    + ((p.y : Int) - (q.y : Int)) ^ 2
    + (10 * ((p.z : Int) - (q.z : Int))) ^ 2

/-- Modelled from the spec: the exact anisotropic squared Euclidean
distance transform (`vigra::separableMultiDistSquared` with
`background = true`, an external library call; §4.2 of the spec gives its
contract).  The sources are the voxels of the cells carrying
reconstruction label `r` (source lines 107-115); the value at `v` is the
least squared pitch-weighted distance from `v` to a source voxel.  The
`[]` case never arises in `enumerateCellLabels`, where `r` ranges over
the keys of the (non-empty-celled) cell map. -/

def distTo (r : Int) (cells : List Cell) (v : Location) : Int :=
  match (cells.filter (fun c => c.recLabel == r)).flatMap Cell.locations with
  | [] => 0
  | u :: us => us.foldl (fun m w => min m (sqDistPitch v w)) (sqDistPitch v u)

/-- The ascending key list of the cell map (`_cells | map_keys`, source
lines 102 and 120); the cell list is sorted by `(recLabel, gtLabel)`, so
duplicates are adjacent. -/

def sortedKeys : List Cell → List Int
  | [] => []
  | c :: cs =>
      match sortedKeys cs with
      | [] => [c.recLabel]
      | k :: ks => if c.recLabel = k then k :: ks else c.recLabel :: k :: ks

/-- The per-cell maximum of the distance field (source lines 126-129):
starts at `0` and takes the field value at every location of the cell. -/

def maxDistCell (dist : Location → Int) (c : Cell) : Int :=
  c.locations.foldl (fun m l => if dist l > m then dist l else m) 0

/-- `cell_t::addAlternativeLabel` (source line 135): insertion into the
`std::set<float>` of alternative labels. -/

def addAlternative (r : Int) (c : Cell) : Cell :=
  { c with alternativeLabels := insertSorted r c.alternativeLabels }

/-- The test of source lines 122-133: the cell does not already carry
`recLabel`, and its maximal distance-field value is strictly below the
threshold.  The comparison `maxDistance < _maxDistanceThreshold` of
source line 133 compares the SQUARED distance against the unsquared
threshold, faithfully reproduced here. -/

def cellQualifies (threshold : Int) (r : Int) (cells : List Cell) (c : Cell) : Prop :=
  c.recLabel ≠ r ∧ maxDistCell (distTo r cells) c < threshold

instance (threshold r : Int) (cells : List Cell) (c : Cell) :
    Decidable (cellQualifies threshold r cells c) := by
  unfold cellQualifies; infer_instance

/-- One iteration of the outer loop of `enumerateCellLabels` (source lines
102-139) for reconstruction label `r`: the loop body touches only the
current cell's `alternativeLabels` and the possible-match structures, and
the qualification test reads only the (unchanged) locations and
reconstruction labels, so the in-place scan splits into a pointwise
update of the cell list and a fold of `registerPossibleMatch` over the
qualifying cells. -/

def enumerateStep (threshold : Int) (r : Int) (st : TEDState) : TEDState :=
  let newCells := st.cells.map
    (fun c => if cellQualifies threshold r st.cells c then addAlternative r c else c)
  (st.cells.filter (fun c => decide (cellQualifies threshold r st.cells c))).foldl
    (fun s c => registerPossibleMatch c.gtLabel r s)
    { st with cells := newCells }

/-- `TolerantEditDistance::enumerateCellLabels` (source lines 87-140):
for each reconstruction label of the cell map, build the distance field
and give every sufficiently close cell of a different label that label as
an alternative.  `threshold` is `_maxDistanceThreshold`
(program option `toleranceDistanceThreshold`, default `100`). -/

def enumerateCellLabels (threshold : Int) (st : TEDState) : TEDState :=
  (sortedKeys st.cells).foldl (fun s r => enumerateStep threshold r s) st

/-- The relation of a `LinearConstraint` (`inference/Relation.h`); only
`Equal` and `GreaterEqual` are used by the builder. -/

inductive Relation where
  | lessEqual
  | equal
  | greaterEqual
deriving DecidableEq, Repr

/-- Modelled from the spec: one linear constraint of the solver interface
(`inference/LinearConstraints.h`, an external collaborator per §1; §6
gives the interface).  `coefficients` records the `setCoefficient` calls
in order; all variable indices set by the builder are distinct within one
constraint. -/

structure LinearConstraint where
  coefficients : List (Nat × Int)
  relation : Relation
  value : Int
deriving DecidableEq, Repr

/-- Variable types of the solver parameters (`inference/LinearSolver.h`). -/

inductive VarType where
  | binary
  | integer
deriving DecidableEq, Repr

/-- Objective sense (`inference/LinearObjective.h`). -/

inductive Sense where
  | minimize
  | maximize
deriving DecidableEq, Repr

/-- The accumulating state of `findBestCellLabels`: the running variable
counter `var`, the emitted constraints, and the bookkeeping maps of
header lines 536-546 (`_indicatorVarsByRecLabel`,
`_indicatorVarsByGtToRecLabel`, `_matchVars`) as total functions with the
`operator[]` defaults, plus the `setVariableType` overrides of the solver
parameters in call order. -/

structure BuildState where
  var : Nat
  constraints : List LinearConstraint
  indByRec : Int → List Nat
  indByGtRec : Int → Int → List Nat
  matchVars : Int → Int → Nat
  typeOverrides : List (Nat × VarType)

/-- The build state at entry of `findBestCellLabels` on a fresh object. -/

def initBuild : BuildState :=
  { var := 0
    constraints := []
    indByRec := fun _ => []
    indByGtRec := fun _ _ => []
    matchVars := fun _ _ => 0
    typeOverrides := [] }

/-- `_indicatorVarsByRecLabel[l].push_back(v)`. -/

def pushVarByRec (f : Int → List Nat) (l : Int) (v : Nat) : Int → List Nat :=
  fun r => if r = l then f r ++ [v] else f r

/-- `_indicatorVarsByGtToRecLabel[g][l].push_back(v)`. -/

def pushVarByGtRec (f : Int → Int → List Nat) (g l : Int) (v : Nat) : Int → Int → List Nat :=
  fun g2 r2 => if g2 = g ∧ r2 = l then f g2 r2 ++ [v] else f g2 r2

/-- `_matchVars[g][r] = v`. -/

def setMatchVar (f : Int → Int → Nat) (g r : Int) (v : Nat) : Int → Int → Nat :=
  fun g2 r2 => if g2 = g ∧ r2 = r then v else f g2 r2

/-- `TolerantEditDistance::assignIndicatorVariable` (source lines 377-384)
at the current variable counter, followed by the `var++` of the call
sites (source lines 161 and 165). -/

def assignIndicatorVariable (g l : Int) (bs : BuildState) : BuildState :=
  { bs with
    var := bs.var + 1
    indByRec := pushVarByRec bs.indByRec l bs.var
    indByGtRec := pushVarByGtRec bs.indByGtRec g l bs.var }

/-- The body of the per-cell loop of source lines 154-177: one indicator
for the default label, one per alternative label, then the cell-coverage
constraint `sum of the block of indicators = 1` over `[begin, end)`. -/

def processCellP1 (bs : BuildState) (c : Cell) : BuildState :=
  let b0 := bs.var
  let bs1 := assignIndicatorVariable c.gtLabel c.recLabel bs
  let bs2 := c.alternativeLabels.foldl
    (fun b l => assignIndicatorVariable c.gtLabel l b) bs1
  { bs2 with
    constraints := bs2.constraints ++
      [⟨(List.range' b0 (bs2.var - b0)).map (fun i => ((i : Nat), (1 : Int))),
        Relation.equal, 1⟩] }

/-- Indicator variables and cell-coverage constraints (source lines
152-177): iterate the reconstruction labels in ascending order and, for
each, the cells of that label in ascending ground-truth order. -/

def phase1 (st : TEDState) (bs : BuildState) : BuildState :=
  st.reconstructionLabels.foldl
    (fun b r => (st.cells.filter (fun c => c.recLabel == r)).foldl processCellP1 b) bs

/-- The labels-can-not-disappear constraints (source lines 179-188): for
every reconstruction label, the sum of all indicators carrying that label
is at least `1`. -/

def phase2 (st : TEDState) (bs : BuildState) : BuildState :=
  st.reconstructionLabels.foldl
    (fun b r =>
      { b with
        constraints := b.constraints ++
          [⟨(b.indByRec r).map (fun v => ((v : Nat), (1 : Int))),
            Relation.greaterEqual, 1⟩] }) bs

/-- Allocation of the match variables (source lines 190-194), one per
`(gtLabel, recLabel)` pair of `_possibleGroundTruthMatches`, via
`assignMatchVariable` (source lines 398-404). -/

def phase3 (st : TEDState) (bs : BuildState) : BuildState :=
  st.groundTruthLabels.foldl
    (fun b g =>
      (pmLookup st.possibleGroundTruthMatches g).foldl
        (fun b2 r =>
          { b2 with var := b2.var + 1, matchVars := setMatchVar b2.matchVars g r b2.var }) b) bs

/-- The body of the match-activation loop of source lines 198-223 for a
single `(g, r)` pair: one constraint `m - v >= 0` per indicator `v` of
`g` mapped to `r` (added inside the loop), then the closing constraint
`sum of the v - m >= 0`. -/

def phase4Pair (b : BuildState) (g r : Int) : BuildState :=
  let mv := b.matchVars g r
  let inds := b.indByGtRec g r
  { b with
    constraints := b.constraints ++
      inds.map (fun v =>
        (⟨[(mv, (1 : Int)), (v, (-1 : Int))], Relation.greaterEqual, 0⟩ : LinearConstraint)) ++
      [⟨inds.map (fun v => ((v : Nat), (1 : Int))) ++ [(mv, (-1 : Int))],
        Relation.greaterEqual, 0⟩] }

/-- The match-activation constraints (source lines 196-224). -/

def phase4 (st : TEDState) (bs : BuildState) : BuildState :=
  st.groundTruthLabels.foldl
    (fun b g =>
      (pmLookup st.possibleGroundTruthMatches g).foldl
        (fun b2 r => phase4Pair b2 g r) b) bs

/-- The body of the split-counter loop of source lines 230-251 for one
ground-truth label: allocate the integer split variable, emit
`splitVar >= 0` and `splitVar - sum of the matches of g = -1`. -/

def phase5Gt (st : TEDState) (b : BuildState) (g : Int) : BuildState :=
  let sv := b.var
  { b with
    var := sv + 1
    typeOverrides := b.typeOverrides ++ [(sv, VarType.integer)]
    constraints := b.constraints ++
      [⟨[(sv, (1 : Int))], Relation.greaterEqual, 0⟩,
       ⟨(sv, (1 : Int)) ::
          (pmLookup st.possibleGroundTruthMatches g).map
            (fun r => ((b.matchVars g r : Nat), (-1 : Int))),
        Relation.equal, -1⟩] }

/-- Split counters and the total split number (source lines 226-266):
per-label split variables, then the integer total `S` with
`S - sum of the split variables = 0`.  `S` is the last variable this
phase allocates. -/

def phase5 (st : TEDState) (bs : BuildState) : BuildState :=
  let splitBegin := bs.var
  let b1 := st.groundTruthLabels.foldl (phase5Gt st) bs
  let splitEnd := b1.var
  let s := b1.var
  { b1 with
    var := s + 1
    typeOverrides := b1.typeOverrides ++ [(s, VarType.integer)]
    constraints := b1.constraints ++
      [⟨(s, (1 : Int)) ::
          (List.range' splitBegin (splitEnd - splitBegin)).map
            (fun i => ((i : Nat), (-1 : Int))),
        Relation.equal, 0⟩] }

/-- The body of the merge-counter loop of source lines 272-293 for one
reconstruction label, reading the ground-truth partners from
`_possibleReconstructionMatches`. -/

def phase6Rec (st : TEDState) (b : BuildState) (r : Int) : BuildState :=
  let mv := b.var
  { b with
    var := mv + 1
    typeOverrides := b.typeOverrides ++ [(mv, VarType.integer)]
    constraints := b.constraints ++
      [⟨[(mv, (1 : Int))], Relation.greaterEqual, 0⟩,
       ⟨(mv, (1 : Int)) ::
          (pmLookup st.possibleReconstructionMatches r).map
            (fun g => ((b.matchVars g r : Nat), (-1 : Int))),
        Relation.equal, -1⟩] }

/-- Merge counters and the total merge number (source lines 268-308).
`M` is the last variable this phase allocates. -/

def phase6 (st : TEDState) (bs : BuildState) : BuildState :=
  let mergeBegin := bs.var
  let b1 := st.reconstructionLabels.foldl (phase6Rec st) bs
  let mergeEnd := b1.var
  let m := b1.var
  { b1 with
    var := m + 1
    typeOverrides := b1.typeOverrides ++ [(m, VarType.integer)]
    constraints := b1.constraints ++
      [⟨(m, (1 : Int)) ::
          (List.range' mergeBegin (mergeEnd - mergeBegin)).map
            (fun i => ((i : Nat), (-1 : Int))),
        Relation.equal, 0⟩] }

/-- A point update of the objective coefficient vector
(`LinearObjective::setCoefficient`). -/

def setObjCoef (f : Nat → Int) (k : Nat) (x : Int) : Nat → Int :=
  fun v => if v = k then x else f v

/-- The ILP produced by `findBestCellLabels` before it is handed to the
solver: variable count, constraints, bookkeeping maps, variable types
(default `Binary`, source line 149, with the `Integer` overrides), the
indices of the total split and merge variables, and the objective. -/

structure ILP where
  numVars : Nat
  constraints : List LinearConstraint
  indByRec : Int → List Nat
  indByGtRec : Int → Int → List Nat
  matchVars : Int → Int → Nat
  typeOverrides : List (Nat × VarType)
  splitsVar : Nat
  mergesVar : Nat
  objective : Nat → Int
  sense : Sense

/-- The variable type under the solver parameters: the last
`setVariableType` override, or the default `Binary` set at source
line 149. -/

def varTypeOf (overrides : List (Nat × VarType)) (v : Nat) : VarType :=
  match overrides.reverse.find? (fun p => p.1 == v) with
  | some p => p.2
  | none => VarType.binary

/-- `TolerantEditDistance::findBestCellLabels` (source lines 142-334) up
to the solver call: the six emission phases in source order, then the
objective `minimize S + M` (source lines 314-320), where `S` and `M` are
the variables allocated last by phases 5 and 6. -/

def findBestCellLabels (st : TEDState) : ILP :=
  let b4 := phase4 st (phase3 st (phase2 st (phase1 st initBuild)))
  let b5 := phase5 st b4
  let splits := b5.var - 1
  let b6 := phase6 st b5
  let merges := b6.var - 1
  { numVars := b6.var
    constraints := b6.constraints
    indByRec := b6.indByRec
    indByGtRec := b6.indByGtRec
    matchVars := b6.matchVars
    typeOverrides := b6.typeOverrides
    splitsVar := splits
    mergesVar := merges
    objective := setObjCoef (setObjCoef (fun _ => 0) splits 1) merges 1
    sense := Sense.minimize }

/-- The cells in the order the builder visits them (source lines 153-154):
ascending reconstruction label, then ascending ground-truth label. -/

def visitedCells (st : TEDState) : List Cell :=
  st.reconstructionLabels.flatMap (fun r => st.cells.filter (fun c => c.recLabel == r))

/-- The number of indicator variables of one cell: one for the default
label plus one per alternative label. -/

def numInd (c : Cell) : Nat := 1 + c.alternativeLabels.length

/-- The labels a cell may be assigned, in allocation order: the default
reconstruction label first, then the alternatives in ascending order. -/

def cellLabels (c : Cell) : List Int := c.recLabel :: c.alternativeLabels

/-- The total number of indicator variables over a cell list. -/

def totalInd : List Cell → Nat
  | [] => 0
  | c :: cs => numInd c + totalInd cs

/-- The positions (offset by `v`) at which label `r` occurs in a label
list: the indicator variables with assigned label `r` within one cell's
block that starts at variable `v`. -/

def indOfLabels (v : Nat) (r : Int) : List Int → List Nat
  | [] => []
  | l :: ls => (if r = l then [v] else []) ++ indOfLabels (v + 1) r ls

/-- The indicator variables whose assigned label is `r`, over a cell list
whose first block starts at variable `v` — the intended content of
`_indicatorVarsByRecLabel[r]`. -/

def indByRecSpec (v : Nat) (r : Int) : List Cell → List Nat
  | [] => []
  | c :: cs => indOfLabels v r (cellLabels c) ++ indByRecSpec (v + numInd c) r cs

/-- The indicator variables of cells with ground-truth label `g` whose
assigned label is `r` — the intended content of
`_indicatorVarsByGtToRecLabel[g][r]`. -/

def indByGtRecSpec (v : Nat) (g r : Int) : List Cell → List Nat
  | [] => []
  | c :: cs =>
      (if g = c.gtLabel then indOfLabels v r (cellLabels c) else [])
        ++ indByGtRecSpec (v + numInd c) g r cs

/-- The cell-coverage constraints: one per cell, summing the cell's own
contiguous block of `numInd` indicator variables to `1`. -/

def coverageSpec (v : Nat) : List Cell → List LinearConstraint
  | [] => []
  | c :: cs =>
      ⟨(List.range' v (numInd c)).map (fun i => ((i : Nat), (1 : Int))), Relation.equal, 1⟩
        :: coverageSpec (v + numInd c) cs

/-- The labels-can-not-disappear constraints in emission order: for the
j-th reconstruction label, the sum of every indicator variable carrying
that label — across all cells, alternatives included — is at least 1. -/

def disappearSpec (st : TEDState) : List LinearConstraint :=
  st.reconstructionLabels.map
    (fun r =>
      ⟨(indByRecSpec 0 r (visitedCells st)).map (fun v => ((v : Nat), (1 : Int))),
        Relation.greaterEqual, 1⟩)

/-- The `(gtLabel, recLabel)` pairs of `_possibleGroundTruthMatches` in the
order the builder visits them (source lines 192-193). -/

def pmPairs (st : TEDState) : List (Int × Int) :=
  st.groundTruthLabels.flatMap
    (fun g => (pmLookup st.possibleGroundTruthMatches g).map (fun r => (g, r)))

/-- Position of the pair `(g, r)` in a pair list. -/

def idxOfPair (g r : Int) : List (Int × Int) → Nat
  | [] => 0
  | p :: ps => if p.1 = g ∧ p.2 = r then 0 else idxOfPair g r ps + 1

/-- The intended index of the match variable `m[g, r]`: the match
variables are allocated right after the indicator variables, in
`pmPairs` order. -/

def matchVarIdx (st : TEDState) (g r : Int) : Nat :=
  totalInd (visitedCells st) + idxOfPair g r (pmPairs st)

/-- The match-activation constraints of one `(g, r)` pair, parametrised by
the match-variable map `mv` and the indicator map `ind`: one constraint
`m - v >= 0` per indicator `v`, then `sum of the v - m >= 0`. -/

def pairChunkMv (mv : Int → Int → Nat) (ind : Int → Int → List Nat) (g r : Int) :
    List LinearConstraint :=
  (ind g r).map
    (fun v => (⟨[(mv g r, (1 : Int)), (v, (-1 : Int))], Relation.greaterEqual, 0⟩ :
      LinearConstraint))
    ++ [⟨(ind g r).map (fun v => ((v : Nat), (1 : Int))) ++ [(mv g r, (-1 : Int))],
        Relation.greaterEqual, 0⟩]

/-- The match-activation constraints over a pair list. -/

def activationMv (mv : Int → Int → Nat) (ind : Int → Int → List Nat)
    (ps : List (Int × Int)) : List LinearConstraint :=
  ps.flatMap (fun p => pairChunkMv mv ind p.1 p.2)

/-- The intended indicator map after phase 1. -/

def indGtRecOf (st : TEDState) : Int → Int → List Nat :=
  fun g r => indByGtRecSpec 0 g r (visitedCells st)

/-- The intended match-variable map after phase 3. -/

def matchVarOf (st : TEDState) : Int → Int → Nat :=
  fun g r => matchVarIdx st g r

/-- The match-activation constraints in emission order, with the intended
variable indices. -/

def activationSpec (st : TEDState) : List LinearConstraint :=
  activationMv (matchVarOf st) (indGtRecOf st) (pmPairs st)

/-- The split-counter constraints, parametrised by the index `v` of the
first split variable and the match-variable map: per ground-truth label,
`splitVar >= 0` and `splitVar - sum of the matches = -1`. -/

def splitChunk (st : TEDState) (v : Nat) (mv : Int → Int → Nat) :
    List Int → List LinearConstraint
  | [] => []
  | g :: gs =>
      ⟨[(v, (1 : Int))], Relation.greaterEqual, 0⟩ ::
      ⟨(v, (1 : Int)) ::
          (pmLookup st.possibleGroundTruthMatches g).map
            (fun r => ((mv g r : Nat), (-1 : Int))),
        Relation.equal, -1⟩ ::
      splitChunk st (v + 1) mv gs

/-- The merge-counter constraints, reading the partners from
`_possibleReconstructionMatches`. -/

def mergeChunk (st : TEDState) (v : Nat) (mv : Int → Int → Nat) :
    List Int → List LinearConstraint
  | [] => []
  | r :: rs =>
      ⟨[(v, (1 : Int))], Relation.greaterEqual, 0⟩ ::
      ⟨(v, (1 : Int)) ::
          (pmLookup st.possibleReconstructionMatches r).map
            (fun g => ((mv g r : Nat), (-1 : Int))),
        Relation.equal, -1⟩ ::
      mergeChunk st (v + 1) mv rs

/-- The index of the first split variable: after all indicator and match
variables. -/

def splitVar0 (st : TEDState) : Nat :=
  totalInd (visitedCells st) + (pmPairs st).length

/-- The index of the total-splits variable `S`. -/

def splitsIdx (st : TEDState) : Nat :=
  splitVar0 st + st.groundTruthLabels.length

/-- The index of the first merge variable. -/

def mergeVar0 (st : TEDState) : Nat :=
  splitsIdx st + 1

/-- The index of the total-merges variable `M`. -/

def mergesIdx (st : TEDState) : Nat :=
  mergeVar0 st + st.reconstructionLabels.length

/-- The split-counter constraints in emission order. -/

def splitSpecL (st : TEDState) : List LinearConstraint :=
  splitChunk st (splitVar0 st) (matchVarOf st) st.groundTruthLabels

/-- The total-splits constraint `S - sum of the split variables = 0`. -/

def sumSplitsSpec (st : TEDState) : LinearConstraint :=
  ⟨(splitsIdx st, (1 : Int)) ::
      (List.range' (splitVar0 st) st.groundTruthLabels.length).map
        (fun i => ((i : Nat), (-1 : Int))),
    Relation.equal, 0⟩

/-- The merge-counter constraints in emission order. -/

def mergeSpecL (st : TEDState) : List LinearConstraint :=
  mergeChunk st (mergeVar0 st) (matchVarOf st) st.reconstructionLabels

/-- The total-merges constraint `M - sum of the merge variables = 0`. -/

def sumMergesSpec (st : TEDState) : LinearConstraint :=
  ⟨(mergesIdx st, (1 : Int)) ::
      (List.range' (mergeVar0 st) st.reconstructionLabels.length).map
        (fun i => ((i : Nat), (-1 : Int))),
    Relation.equal, 0⟩

/-- The `Integer` type overrides for `n` consecutive variables starting at
`v`. -/

def intOverrides (v n : Nat) : List (Nat × VarType) :=
  (List.range' v n).map (fun i => ((i : Nat), VarType.integer))

/-- The labels-can-not-disappear constraints over a label list, read from
an indicator map `f`. -/

def disappearOf (f : Int → List Nat) (rs : List Int) : List LinearConstraint :=
  rs.map
    (fun r => ⟨(f r).map (fun v => ((v : Nat), (1 : Int))), Relation.greaterEqual, 1⟩)

/-- One step of the match-variable allocation loop, on a `(g, r)` pair. -/

def matchStep (b : BuildState) (p : Int × Int) : BuildState :=
  { b with var := b.var + 1, matchVars := setMatchVar b.matchVars p.1 p.2 b.var }

/-- The build state after the first three phases (indicators, disappear
constraints, match variables). -/

def preBuild (st : TEDState) : BuildState :=
  phase3 st (phase2 st (phase1 st initBuild))

/-- Number of constraints preceding the split-counter block: the coverage
constraints, the disappear constraints, and the match-activation
constraints. -/

def preSplitLen (st : TEDState) : Nat :=
  (visitedCells st).length + st.reconstructionLabels.length + (activationSpec st).length

/-- Number of match-activation constraints emitted before the j-th
possible-match pair is processed. -/

def actLenBefore (st : TEDState) (j : Nat) : Nat :=
  (activationMv (matchVarOf st) (indGtRecOf st) ((pmPairs st).take j)).length

/-- The constraints the builder emits after the match-activation block,
with the match-variable map of the builder itself. -/

def restPre (st : TEDState) : List LinearConstraint :=
  splitChunk st (splitVar0 st) (preBuild st).matchVars st.groundTruthLabels
    ++ [sumSplitsSpec st]
    ++ mergeChunk st (mergeVar0 st) (preBuild st).matchVars st.reconstructionLabels
    ++ [sumMergesSpec st]

/-- A 2x2x1 input on which ground truth and reconstruction agree: left
column label 1, right column label 2.  With the default threshold 100
each of the two cells acquires the other label as an alternative. -/

def gtW : ImageStack := ⟨2, 2, [fun x _ => if x = 0 then 1 else 2]⟩

/-- The state after cell extraction and tolerance enumeration on `gtW`
against itself with the default threshold 100. -/

def stW : TEDState := enumerateCellLabels 100 (extractCells gtW gtW initState).1

/-- A stack with one slice, dimensions 2x2. -/

def gtBad : ImageStack := ⟨2, 2, [fun _ _ => 1]⟩

/-- A stack with no slices but the same width and height as `gtBad`:
the depths disagree. -/

def recBad : ImageStack := ⟨2, 2, []⟩

/-- A 4x4x1 ground truth, constant label 1. -/

def gtC1 : ImageStack := ⟨4, 4, [fun _ _ => 1]⟩

/-- A 4x4x1 reconstruction: label 1 on the two left columns, label 2 on
the two right columns. -/

def recC1 : ImageStack := ⟨4, 4, [fun x _ => if x < 2 then 1 else 2]⟩

/-- The state after cell extraction on `(gtC1, recC1)`. -/

def stC1 : TEDState := (extractCells gtC1 recC1 initState).1

/-- A 1x2x1 input (width 1, height 2): pixel `(0,0)` has label 1, pixel
`(0,1)` has label 5. -/

def gtC2 : ImageStack := ⟨1, 2, [fun _ y => if y = 0 then 1 else 5]⟩

/-- First run input for C3: a single voxel with ground truth 1,
reconstruction 2. -/

def gtA : ImageStack := ⟨1, 1, [fun _ _ => 1]⟩

/-- First run reconstruction for C3. -/

def recA : ImageStack := ⟨1, 1, [fun _ _ => 2]⟩

/-- Second run input for C3: a single voxel with ground truth 3,
reconstruction 4. -/

def gtB : ImageStack := ⟨1, 1, [fun _ _ => 3]⟩

/-- Second run reconstruction for C3. -/

def recB : ImageStack := ⟨1, 1, [fun _ _ => 4]⟩

/-- The state after running `extractCells` twice on the same object:
first on `(gtA, recA)`, then on `(gtB, recB)`. -/

def stC3 : TEDState := (extractCells gtB recB (extractCells gtA recA initState).1).1

/-- The state after extraction and enumeration on an empty input (no
slices, width and height 0). -/

def stEmptyInput : TEDState :=
  enumerateCellLabels 100 (extractCells ⟨0, 0, []⟩ ⟨0, 0, []⟩ initState).1

theorem foldl_flatMap_eq {α β γ : Type} (f : γ → α → γ) (g : β → List α)
    (L : List β) (b : γ) :
    (L.flatMap g).foldl f b = L.foldl (fun a x => (g x).foldl f a) b := by
  induction L generalizing b with
  | nil => rfl
  | cons l ls ih => simp [List.flatMap_cons, List.foldl_append, ih]

theorem foldAssign_var (g : Int) (ls : List Int) (bs : BuildState) :
    (ls.foldl (fun b l => assignIndicatorVariable g l b) bs).var = bs.var + ls.length := by
  induction ls generalizing bs with
  | nil => simp
  | cons l ls ih =>
      rw [List.foldl_cons, ih]
      simp [assignIndicatorVariable]
      omega

theorem foldAssign_constraints (g : Int) (ls : List Int) (bs : BuildState) :
    (ls.foldl (fun b l => assignIndicatorVariable g l b) bs).constraints = bs.constraints := by
  induction ls generalizing bs with
  | nil => rfl
  | cons l ls ih => rw [List.foldl_cons, ih]; rfl

theorem foldAssign_matchVars (g : Int) (ls : List Int) (bs : BuildState) :
    (ls.foldl (fun b l => assignIndicatorVariable g l b) bs).matchVars = bs.matchVars := by
  induction ls generalizing bs with
  | nil => rfl
  | cons l ls ih => rw [List.foldl_cons, ih]; rfl

theorem foldAssign_typeOverrides (g : Int) (ls : List Int) (bs : BuildState) :
    (ls.foldl (fun b l => assignIndicatorVariable g l b) bs).typeOverrides
      = bs.typeOverrides := by
  induction ls generalizing bs with
  | nil => rfl
  | cons l ls ih => rw [List.foldl_cons, ih]; rfl

theorem foldAssign_indByRec (g : Int) (ls : List Int) (bs : BuildState) (r : Int) :
    (ls.foldl (fun b l => assignIndicatorVariable g l b) bs).indByRec r
      = bs.indByRec r ++ indOfLabels bs.var r ls := by
  induction ls generalizing bs with
  | nil => simp [indOfLabels]
  | cons l ls ih =>
      rw [List.foldl_cons, ih]
      simp only [assignIndicatorVariable, indOfLabels]
      by_cases h : r = l <;> simp [pushVarByRec, h]

theorem foldAssign_indByGtRec (g : Int) (ls : List Int) (bs : BuildState) (g2 r : Int) :
    (ls.foldl (fun b l => assignIndicatorVariable g l b) bs).indByGtRec g2 r
      = bs.indByGtRec g2 r ++ (if g2 = g then indOfLabels bs.var r ls else []) := by
  induction ls generalizing bs with
  | nil => simp [indOfLabels]
  | cons l ls ih =>
      rw [List.foldl_cons, ih]
      simp only [assignIndicatorVariable, indOfLabels]
      by_cases hg : g2 = g
      · by_cases h : r = l <;> simp [pushVarByGtRec, hg, h]
      · simp [pushVarByGtRec, hg]

theorem processCellP1_var (bs : BuildState) (c : Cell) :
    (processCellP1 bs c).var = bs.var + numInd c := by
  show (c.alternativeLabels.foldl (fun b l => assignIndicatorVariable c.gtLabel l b)
      (assignIndicatorVariable c.gtLabel c.recLabel bs)).var = bs.var + numInd c
  rw [foldAssign_var]
  simp [assignIndicatorVariable, numInd]
  omega

theorem processCellP1_constraints (bs : BuildState) (c : Cell) :
    (processCellP1 bs c).constraints
      = bs.constraints ++
        [⟨(List.range' bs.var (numInd c)).map (fun i => ((i : Nat), (1 : Int))),
          Relation.equal, 1⟩] := by
  show (c.alternativeLabels.foldl (fun b l => assignIndicatorVariable c.gtLabel l b)
        (assignIndicatorVariable c.gtLabel c.recLabel bs)).constraints
      ++ [⟨(List.range'
            bs.var
            ((c.alternativeLabels.foldl (fun b l => assignIndicatorVariable c.gtLabel l b)
              (assignIndicatorVariable c.gtLabel c.recLabel bs)).var - bs.var)).map
          (fun i => ((i : Nat), (1 : Int))), Relation.equal, 1⟩]
      = _
  rw [foldAssign_constraints, foldAssign_var]
  simp only [assignIndicatorVariable, numInd]
  have : bs.var + 1 + c.alternativeLabels.length - bs.var
      = 1 + c.alternativeLabels.length := by omega
  rw [this]

theorem processCellP1_indByRec (bs : BuildState) (c : Cell) (r : Int) :
    (processCellP1 bs c).indByRec r
      = bs.indByRec r ++ indOfLabels bs.var r (cellLabels c) := by
  show (c.alternativeLabels.foldl (fun b l => assignIndicatorVariable c.gtLabel l b)
      (assignIndicatorVariable c.gtLabel c.recLabel bs)).indByRec r = _
  rw [foldAssign_indByRec]
  simp only [assignIndicatorVariable, cellLabels, indOfLabels]
  by_cases hr : r = c.recLabel <;> simp [pushVarByRec, hr]

theorem processCellP1_indByGtRec (bs : BuildState) (c : Cell) (g r : Int) :
    (processCellP1 bs c).indByGtRec g r
      = bs.indByGtRec g r
        ++ (if g = c.gtLabel then indOfLabels bs.var r (cellLabels c) else []) := by
  show (c.alternativeLabels.foldl (fun b l => assignIndicatorVariable c.gtLabel l b)
      (assignIndicatorVariable c.gtLabel c.recLabel bs)).indByGtRec g r = _
  rw [foldAssign_indByGtRec]
  simp only [assignIndicatorVariable, cellLabels, indOfLabels]
  by_cases hg : g = c.gtLabel
  · by_cases hr : r = c.recLabel <;> simp [pushVarByGtRec, hg, hr]
  · simp [pushVarByGtRec, hg]

theorem processCellP1_matchVars (bs : BuildState) (c : Cell) :
    (processCellP1 bs c).matchVars = bs.matchVars := by
  show (c.alternativeLabels.foldl (fun b l => assignIndicatorVariable c.gtLabel l b)
      (assignIndicatorVariable c.gtLabel c.recLabel bs)).matchVars = _
  rw [foldAssign_matchVars]; rfl

theorem processCellP1_typeOverrides (bs : BuildState) (c : Cell) :
    (processCellP1 bs c).typeOverrides = bs.typeOverrides := by
  show (c.alternativeLabels.foldl (fun b l => assignIndicatorVariable c.gtLabel l b)
      (assignIndicatorVariable c.gtLabel c.recLabel bs)).typeOverrides = _
  rw [foldAssign_typeOverrides]; rfl

theorem foldCells_var (cs : List Cell) (bs : BuildState) :
    (cs.foldl processCellP1 bs).var = bs.var + totalInd cs := by
  induction cs generalizing bs with
  | nil => simp [totalInd]
  | cons c cs ih =>
      rw [List.foldl_cons, ih, processCellP1_var]
      simp [totalInd]
      omega

theorem foldCells_constraints (cs : List Cell) (bs : BuildState) :
    (cs.foldl processCellP1 bs).constraints = bs.constraints ++ coverageSpec bs.var cs := by
  induction cs generalizing bs with
  | nil => simp [coverageSpec]
  | cons c cs ih =>
      rw [List.foldl_cons, ih, processCellP1_constraints, processCellP1_var]
      simp [coverageSpec]

theorem foldCells_indByRec (cs : List Cell) (bs : BuildState) (r : Int) :
    (cs.foldl processCellP1 bs).indByRec r
      = bs.indByRec r ++ indByRecSpec bs.var r cs := by
  induction cs generalizing bs with
  | nil => simp [indByRecSpec]
  | cons c cs ih =>
      rw [List.foldl_cons, ih, processCellP1_indByRec, processCellP1_var]
      simp [indByRecSpec]

theorem foldCells_indByGtRec (cs : List Cell) (bs : BuildState) (g r : Int) :
    (cs.foldl processCellP1 bs).indByGtRec g r
      = bs.indByGtRec g r ++ indByGtRecSpec bs.var g r cs := by
  induction cs generalizing bs with
  | nil => simp [indByGtRecSpec]
  | cons c cs ih =>
      rw [List.foldl_cons, ih, processCellP1_indByGtRec, processCellP1_var]
      simp [indByGtRecSpec]

theorem foldCells_matchVars (cs : List Cell) (bs : BuildState) :
    (cs.foldl processCellP1 bs).matchVars = bs.matchVars := by
  induction cs generalizing bs with
  | nil => rfl
  | cons c cs ih => rw [List.foldl_cons, ih, processCellP1_matchVars]

theorem foldCells_typeOverrides (cs : List Cell) (bs : BuildState) :
    (cs.foldl processCellP1 bs).typeOverrides = bs.typeOverrides := by
  induction cs generalizing bs with
  | nil => rfl
  | cons c cs ih => rw [List.foldl_cons, ih, processCellP1_typeOverrides]

theorem phase1_eq (st : TEDState) (bs : BuildState) :
    phase1 st bs = (visitedCells st).foldl processCellP1 bs := by
  unfold phase1 visitedCells
  rw [foldl_flatMap_eq]

theorem foldDisappear_eq (rs : List Int) (bs : BuildState) :
    rs.foldl
      (fun b r =>
        { b with
          constraints := b.constraints ++
            [⟨(b.indByRec r).map (fun v => ((v : Nat), (1 : Int))),
              Relation.greaterEqual, 1⟩] }) bs
      = { bs with constraints := bs.constraints ++ disappearOf bs.indByRec rs } := by
  induction rs generalizing bs with
  | nil => simp [disappearOf]
  | cons r rs ih =>
      rw [List.foldl_cons, ih]
      simp [disappearOf]

theorem phase2_eq (st : TEDState) (bs : BuildState) :
    phase2 st bs
      = { bs with
          constraints := bs.constraints ++ disappearOf bs.indByRec st.reconstructionLabels } := by
  unfold phase2
  exact foldDisappear_eq st.reconstructionLabels bs

theorem phase3_eq (st : TEDState) (bs : BuildState) :
    phase3 st bs = (pmPairs st).foldl matchStep bs := by
  unfold phase3 pmPairs
  rw [foldl_flatMap_eq]
  simp only [List.foldl_map, matchStep]

theorem matchFold_var (ps : List (Int × Int)) (bs : BuildState) :
    (ps.foldl matchStep bs).var = bs.var + ps.length := by
  induction ps generalizing bs with
  | nil => simp
  | cons p ps ih =>
      rw [List.foldl_cons, ih]
      simp [matchStep]
      omega

theorem matchFold_constraints (ps : List (Int × Int)) (bs : BuildState) :
    (ps.foldl matchStep bs).constraints = bs.constraints := by
  induction ps generalizing bs with
  | nil => rfl
  | cons p ps ih => rw [List.foldl_cons, ih]; rfl

theorem matchFold_indByRec (ps : List (Int × Int)) (bs : BuildState) :
    (ps.foldl matchStep bs).indByRec = bs.indByRec := by
  induction ps generalizing bs with
  | nil => rfl
  | cons p ps ih => rw [List.foldl_cons, ih]; rfl

theorem matchFold_indByGtRec (ps : List (Int × Int)) (bs : BuildState) :
    (ps.foldl matchStep bs).indByGtRec = bs.indByGtRec := by
  induction ps generalizing bs with
  | nil => rfl
  | cons p ps ih => rw [List.foldl_cons, ih]; rfl

theorem matchFold_typeOverrides (ps : List (Int × Int)) (bs : BuildState) :
    (ps.foldl matchStep bs).typeOverrides = bs.typeOverrides := by
  induction ps generalizing bs with
  | nil => rfl
  | cons p ps ih => rw [List.foldl_cons, ih]; rfl

theorem matchFold_notMem (ps : List (Int × Int)) (bs : BuildState) (g r : Int)
    (h : (g, r) ∉ ps) :
    (ps.foldl matchStep bs).matchVars g r = bs.matchVars g r := by
  induction ps generalizing bs with
  | nil => rfl
  | cons p ps ih =>
      rw [List.foldl_cons, ih _ (fun hm => h (List.mem_cons_of_mem p hm))]
      have hne : ¬(g = p.1 ∧ r = p.2) := by
        rintro ⟨h1, h2⟩
        exact h (by
          have : p = (g, r) := by
            cases p
            simp_all
          simp [this])
      simp [matchStep, setMatchVar, hne]

theorem matchFold_mem (ps : List (Int × Int)) (bs : BuildState) (g r : Int)
    (hnd : ps.Nodup) (h : (g, r) ∈ ps) :
    (ps.foldl matchStep bs).matchVars g r = bs.var + idxOfPair g r ps := by
  induction ps generalizing bs with
  | nil => cases h
  | cons p ps ih =>
      rw [List.foldl_cons]
      by_cases hp : p.1 = g ∧ p.2 = r
      · have hpgr : p = (g, r) := by
          cases p
          simp_all
      -- the head pair is written here and, by nodup, never again
        have hnot : (g, r) ∉ ps := by
          rw [← hpgr]
          exact (List.nodup_cons.mp hnd).1
        rw [matchFold_notMem ps _ g r hnot]
        have hc : g = p.1 ∧ r = p.2 := ⟨hp.1.symm, hp.2.symm⟩
        rw [show idxOfPair g r (p :: ps) = 0 from by simp [idxOfPair, hp]]
        simp [matchStep, setMatchVar, hc]
      · have hmem : (g, r) ∈ ps := by
          rcases List.mem_cons.mp h with heq | hm
          · exact absurd (by simp [heq.symm] : p.1 = g ∧ p.2 = r) hp
          · exact hm
        rw [ih _ (List.nodup_cons.mp hnd).2 hmem]
        simp [matchStep, idxOfPair, hp]
        omega

theorem foldPhase4_eq (ps : List (Int × Int)) (bs : BuildState) :
    ps.foldl (fun b p => phase4Pair b p.1 p.2) bs
      = { bs with
          constraints := bs.constraints ++ activationMv bs.matchVars bs.indByGtRec ps } := by
  induction ps generalizing bs with
  | nil => simp [activationMv]
  | cons p ps ih =>
      rw [List.foldl_cons, ih]
      simp [phase4Pair, activationMv, pairChunkMv]

theorem phase4_eq (st : TEDState) (bs : BuildState) :
    phase4 st bs
      = { bs with
          constraints := bs.constraints
            ++ activationMv bs.matchVars bs.indByGtRec (pmPairs st) } := by
  have h : phase4 st bs = (pmPairs st).foldl (fun b p => phase4Pair b p.1 p.2) bs := by
    unfold phase4 pmPairs
    rw [foldl_flatMap_eq]
    simp only [List.foldl_map]
  rw [h, foldPhase4_eq]

theorem intOverrides_succ (v n : Nat) :
    intOverrides v (n + 1) = (v, VarType.integer) :: intOverrides (v + 1) n := by
  simp [intOverrides, List.range'_succ v n 1]

theorem foldPhase5_eq (st : TEDState) (gs : List Int) (bs : BuildState) :
    gs.foldl (phase5Gt st) bs
      = { bs with
          var := bs.var + gs.length
          constraints := bs.constraints ++ splitChunk st bs.var bs.matchVars gs
          typeOverrides := bs.typeOverrides ++ intOverrides bs.var gs.length } := by
  induction gs generalizing bs with
  | nil => simp [splitChunk, intOverrides]
  | cons g gs ih =>
      rw [List.foldl_cons, ih]
      simp [phase5Gt, splitChunk, intOverrides_succ]
      omega

theorem phase5_eq (st : TEDState) (bs : BuildState) :
    phase5 st bs
      = { bs with
          var := bs.var + st.groundTruthLabels.length + 1
          constraints := bs.constraints
            ++ splitChunk st bs.var bs.matchVars st.groundTruthLabels
            ++ [⟨(bs.var + st.groundTruthLabels.length, (1 : Int)) ::
                  (List.range' bs.var st.groundTruthLabels.length).map
                    (fun i => ((i : Nat), (-1 : Int))),
                Relation.equal, 0⟩]
          typeOverrides := bs.typeOverrides
            ++ intOverrides bs.var st.groundTruthLabels.length
            ++ [(bs.var + st.groundTruthLabels.length, VarType.integer)] } := by
  unfold phase5
  rw [foldPhase5_eq]
  have harith : bs.var + st.groundTruthLabels.length - bs.var
      = st.groundTruthLabels.length := by omega
  simp [harith, List.append_assoc]

theorem foldPhase6_eq (st : TEDState) (rs : List Int) (bs : BuildState) :
    rs.foldl (phase6Rec st) bs
      = { bs with
          var := bs.var + rs.length
          constraints := bs.constraints ++ mergeChunk st bs.var bs.matchVars rs
          typeOverrides := bs.typeOverrides ++ intOverrides bs.var rs.length } := by
  induction rs generalizing bs with
  | nil => simp [mergeChunk, intOverrides]
  | cons r rs ih =>
      rw [List.foldl_cons, ih]
      simp [phase6Rec, mergeChunk, intOverrides_succ]
      omega

theorem phase6_eq (st : TEDState) (bs : BuildState) :
    phase6 st bs
      = { bs with
          var := bs.var + st.reconstructionLabels.length + 1
          constraints := bs.constraints
            ++ mergeChunk st bs.var bs.matchVars st.reconstructionLabels
            ++ [⟨(bs.var + st.reconstructionLabels.length, (1 : Int)) ::
                  (List.range' bs.var st.reconstructionLabels.length).map
                    (fun i => ((i : Nat), (-1 : Int))),
                Relation.equal, 0⟩]
          typeOverrides := bs.typeOverrides
            ++ intOverrides bs.var st.reconstructionLabels.length
            ++ [(bs.var + st.reconstructionLabels.length, VarType.integer)] } := by
  unfold phase6
  rw [foldPhase6_eq]
  have harith : bs.var + st.reconstructionLabels.length - bs.var
      = st.reconstructionLabels.length := by omega
  simp [harith, List.append_assoc]

theorem phase1Init_var (st : TEDState) :
    (phase1 st initBuild).var = totalInd (visitedCells st) := by
  rw [phase1_eq, foldCells_var]
  simp [initBuild]

theorem phase1Init_constraints (st : TEDState) :
    (phase1 st initBuild).constraints = coverageSpec 0 (visitedCells st) := by
  rw [phase1_eq, foldCells_constraints]
  simp [initBuild]

theorem phase1Init_indByRec (st : TEDState) :
    (phase1 st initBuild).indByRec
      = fun r => indByRecSpec 0 r (visitedCells st) := by
  funext r
  rw [phase1_eq, foldCells_indByRec]
  simp [initBuild]

theorem phase1Init_indByGtRec (st : TEDState) :
    (phase1 st initBuild).indByGtRec = indGtRecOf st := by
  funext g r
  rw [phase1_eq, foldCells_indByGtRec]
  simp [initBuild, indGtRecOf]

theorem phase1Init_matchVars (st : TEDState) :
    (phase1 st initBuild).matchVars = fun _ _ => 0 := by
  rw [phase1_eq, foldCells_matchVars]; rfl

theorem phase1Init_typeOverrides (st : TEDState) :
    (phase1 st initBuild).typeOverrides = [] := by
  rw [phase1_eq, foldCells_typeOverrides]; rfl

theorem preBuild_var (st : TEDState) : (preBuild st).var = splitVar0 st := by
  unfold preBuild
  rw [phase3_eq, matchFold_var, phase2_eq]
  simp [splitVar0, phase1Init_var]

theorem preBuild_constraints (st : TEDState) :
    (preBuild st).constraints = coverageSpec 0 (visitedCells st) ++ disappearSpec st := by
  unfold preBuild
  rw [phase3_eq, matchFold_constraints, phase2_eq]
  simp [phase1Init_constraints, phase1Init_indByRec, disappearOf, disappearSpec]

theorem preBuild_indByRec (st : TEDState) :
    (preBuild st).indByRec = fun r => indByRecSpec 0 r (visitedCells st) := by
  unfold preBuild
  rw [phase3_eq, matchFold_indByRec, phase2_eq]
  simp [phase1Init_indByRec]

theorem preBuild_indByGtRec (st : TEDState) :
    (preBuild st).indByGtRec = indGtRecOf st := by
  unfold preBuild
  rw [phase3_eq, matchFold_indByGtRec, phase2_eq]
  simp [phase1Init_indByGtRec]

theorem preBuild_typeOverrides (st : TEDState) :
    (preBuild st).typeOverrides = [] := by
  unfold preBuild
  rw [phase3_eq, matchFold_typeOverrides, phase2_eq]
  simp [phase1Init_typeOverrides]

theorem preBuild_matchVars_mem (st : TEDState) (hnd : (pmPairs st).Nodup)
    (g r : Int) (h : (g, r) ∈ pmPairs st) :
    (preBuild st).matchVars g r = matchVarIdx st g r := by
  unfold preBuild
  rw [phase3_eq, matchFold_mem (pmPairs st) _ g r hnd h]
  have hv : (phase2 st (phase1 st initBuild)).var = totalInd (visitedCells st) := by
    rw [phase2_eq]
    simp [phase1Init_var]
  rw [hv]
  rfl

theorem activationMv_congr (mv mv' : Int → Int → Nat) (ind : Int → Int → List Nat)
    (ps : List (Int × Int)) (h : ∀ p ∈ ps, mv p.1 p.2 = mv' p.1 p.2) :
    activationMv mv ind ps = activationMv mv' ind ps := by
  induction ps with
  | nil => rfl
  | cons p ps ih =>
      simp only [activationMv, List.flatMap_cons] at ih ⊢
      rw [ih (fun q hq => h q (List.mem_cons_of_mem p hq))]
      have hp := h p (List.mem_cons_self p ps)
      simp [pairChunkMv, hp]

theorem splitChunk_congr (st : TEDState) (v : Nat) (mv mv' : Int → Int → Nat)
    (gs : List Int)
    (h : ∀ g ∈ gs, ∀ r ∈ pmLookup st.possibleGroundTruthMatches g, mv g r = mv' g r) :
    splitChunk st v mv gs = splitChunk st v mv' gs := by
  induction gs generalizing v with
  | nil => rfl
  | cons g gs ih =>
      simp only [splitChunk]
      rw [ih (v + 1) (fun g2 hg2 => h g2 (List.mem_cons_of_mem g hg2))]
      have : (pmLookup st.possibleGroundTruthMatches g).map
            (fun r => ((mv g r : Nat), (-1 : Int)))
          = (pmLookup st.possibleGroundTruthMatches g).map
            (fun r => ((mv' g r : Nat), (-1 : Int))) :=
        List.map_congr_left (fun r hr => by rw [h g (List.mem_cons_self g gs) r hr])
      rw [this]

theorem mergeChunk_congr (st : TEDState) (v : Nat) (mv mv' : Int → Int → Nat)
    (rs : List Int)
    (h : ∀ r ∈ rs, ∀ g ∈ pmLookup st.possibleReconstructionMatches r, mv g r = mv' g r) :
    mergeChunk st v mv rs = mergeChunk st v mv' rs := by
  induction rs generalizing v with
  | nil => rfl
  | cons r rs ih =>
      simp only [mergeChunk]
      rw [ih (v + 1) (fun r2 hr2 => h r2 (List.mem_cons_of_mem r hr2))]
      have : (pmLookup st.possibleReconstructionMatches r).map
            (fun g => ((mv g r : Nat), (-1 : Int)))
          = (pmLookup st.possibleReconstructionMatches r).map
            (fun g => ((mv' g r : Nat), (-1 : Int))) :=
        List.map_congr_left (fun g hg => by rw [h r (List.mem_cons_self r rs) g hg])
      rw [this]

theorem pmPairs_mem (st : TEDState) (g r : Int) (hg : g ∈ st.groundTruthLabels)
    (hr : r ∈ pmLookup st.possibleGroundTruthMatches g) : (g, r) ∈ pmPairs st := by
  unfold pmPairs
  exact List.mem_flatMap.mpr ⟨g, hg, List.mem_map.mpr ⟨r, hr, rfl⟩⟩

theorem findBest_constraints_pre (st : TEDState) :
    (findBestCellLabels st).constraints
      = coverageSpec 0 (visitedCells st) ++ disappearSpec st
        ++ activationMv (preBuild st).matchVars (indGtRecOf st) (pmPairs st)
        ++ splitChunk st (splitVar0 st) (preBuild st).matchVars st.groundTruthLabels
        ++ [sumSplitsSpec st]
        ++ mergeChunk st (mergeVar0 st) (preBuild st).matchVars st.reconstructionLabels
        ++ [sumMergesSpec st] := by
  have h0 : (findBestCellLabels st).constraints
      = (phase6 st (phase5 st (phase4 st (preBuild st)))).constraints := rfl
  rw [h0, phase6_eq, phase5_eq, phase4_eq]
  simp only [preBuild_var, preBuild_constraints, preBuild_indByGtRec]
  simp [sumSplitsSpec, sumMergesSpec, splitsIdx, mergeVar0, mergesIdx,
    List.append_assoc, Nat.add_assoc]

theorem preBuild_matchVars_pairs (st : TEDState) (hnd : (pmPairs st).Nodup) :
    ∀ p ∈ pmPairs st, (preBuild st).matchVars p.1 p.2 = matchVarIdx st p.1 p.2 := by
  intro p hp
  exact preBuild_matchVars_mem st hnd p.1 p.2 (by simpa using hp)

theorem findBest_constraints_spec (st : TEDState) (hnd : (pmPairs st).Nodup)
    (hsym : ∀ r ∈ st.reconstructionLabels,
      ∀ g ∈ pmLookup st.possibleReconstructionMatches r, (g, r) ∈ pmPairs st) :
    (findBestCellLabels st).constraints
      = coverageSpec 0 (visitedCells st) ++ disappearSpec st
        ++ activationSpec st
        ++ splitSpecL st
        ++ [sumSplitsSpec st]
        ++ mergeSpecL st
        ++ [sumMergesSpec st] := by
  rw [findBest_constraints_pre]
  rw [activationMv_congr (preBuild st).matchVars (matchVarOf st) (indGtRecOf st)
    (pmPairs st) (preBuild_matchVars_pairs st hnd)]
  rw [splitChunk_congr st (splitVar0 st) (preBuild st).matchVars (matchVarOf st)
    st.groundTruthLabels
    (fun g hg r hr => preBuild_matchVars_mem st hnd g r (pmPairs_mem st g r hg hr))]
  rw [mergeChunk_congr st (mergeVar0 st) (preBuild st).matchVars (matchVarOf st)
    st.reconstructionLabels
    (fun r hr g hg => preBuild_matchVars_mem st hnd g r (hsym r hr g hg))]
  rfl

theorem findBest_splitsVar (st : TEDState) :
    (findBestCellLabels st).splitsVar = splitsIdx st := by
  have h0 : (findBestCellLabels st).splitsVar
      = (phase5 st (phase4 st (preBuild st))).var - 1 := rfl
  rw [h0, phase5_eq, phase4_eq]
  simp only [preBuild_var]
  simp [splitsIdx]

theorem findBest_mergesVar (st : TEDState) :
    (findBestCellLabels st).mergesVar = mergesIdx st := by
  have h0 : (findBestCellLabels st).mergesVar
      = (phase6 st (phase5 st (phase4 st (preBuild st)))).var - 1 := rfl
  rw [h0, phase6_eq, phase5_eq, phase4_eq]
  simp only [preBuild_var]
  simp [mergesIdx, mergeVar0, splitsIdx]

theorem findBest_numVars (st : TEDState) :
    (findBestCellLabels st).numVars = mergesIdx st + 1 := by
  have h0 : (findBestCellLabels st).numVars
      = (phase6 st (phase5 st (phase4 st (preBuild st)))).var := rfl
  rw [h0, phase6_eq, phase5_eq, phase4_eq]
  simp only [preBuild_var]
  simp [mergesIdx, mergeVar0, splitsIdx]

theorem findBest_typeOverrides (st : TEDState) :
    (findBestCellLabels st).typeOverrides
      = intOverrides (splitVar0 st) st.groundTruthLabels.length
        ++ [(splitsIdx st, VarType.integer)]
        ++ intOverrides (mergeVar0 st) st.reconstructionLabels.length
        ++ [(mergesIdx st, VarType.integer)] := by
  have h0 : (findBestCellLabels st).typeOverrides
      = (phase6 st (phase5 st (phase4 st (preBuild st)))).typeOverrides := rfl
  rw [h0, phase6_eq, phase5_eq, phase4_eq]
  simp only [preBuild_var, preBuild_typeOverrides]
  simp [splitsIdx, mergeVar0, mergesIdx, List.append_assoc, Nat.add_assoc]

theorem findBest_indByGtRec (st : TEDState) :
    (findBestCellLabels st).indByGtRec = indGtRecOf st := by
  have h0 : (findBestCellLabels st).indByGtRec
      = (phase6 st (phase5 st (phase4 st (preBuild st)))).indByGtRec := rfl
  rw [h0, phase6_eq, phase5_eq, phase4_eq]
  exact preBuild_indByGtRec st

theorem findBest_indByRec (st : TEDState) :
    (findBestCellLabels st).indByRec = fun r => indByRecSpec 0 r (visitedCells st) := by
  have h0 : (findBestCellLabels st).indByRec
      = (phase6 st (phase5 st (phase4 st (preBuild st)))).indByRec := rfl
  rw [h0, phase6_eq, phase5_eq, phase4_eq]
  exact preBuild_indByRec st

theorem findBest_objective (st : TEDState) :
    (findBestCellLabels st).objective
      = setObjCoef (setObjCoef (fun _ => 0) (splitsIdx st) 1) (mergesIdx st) 1 := by
  have h0 : (findBestCellLabels st).objective
      = setObjCoef
          (setObjCoef (fun _ => 0) ((phase5 st (phase4 st (preBuild st))).var - 1) 1)
          ((phase6 st (phase5 st (phase4 st (preBuild st)))).var - 1) 1 := rfl
  rw [h0, phase6_eq, phase5_eq, phase4_eq]
  simp only [preBuild_var]
  have h1 : splitVar0 st + st.groundTruthLabels.length + 1 - 1 = splitsIdx st := by
    simp [splitsIdx]
  have h2 : splitVar0 st + st.groundTruthLabels.length + 1
        + st.reconstructionLabels.length + 1 - 1 = mergesIdx st := by
    simp [mergesIdx, mergeVar0, splitsIdx]
  rw [h1, h2]

theorem findBest_sense (st : TEDState) :
    (findBestCellLabels st).sense = Sense.minimize := rfl

theorem coverageSpec_length (v : Nat) (cs : List Cell) :
    (coverageSpec v cs).length = cs.length := by
  induction cs generalizing v with
  | nil => rfl
  | cons c cs ih => simp [coverageSpec, ih]

theorem disappearSpec_length (st : TEDState) :
    (disappearSpec st).length = st.reconstructionLabels.length := by
  simp [disappearSpec]

theorem pairChunkMv_length (mv : Int → Int → Nat) (ind : Int → Int → List Nat)
    (g r : Int) : (pairChunkMv mv ind g r).length = (ind g r).length + 1 := by
  simp [pairChunkMv]

theorem indOfLabels_append (v : Nat) (r : Int) (a b : List Int) :
    indOfLabels v r (a ++ b) = indOfLabels v r a ++ indOfLabels (v + a.length) r b := by
  induction a generalizing v with
  | nil => simp [indOfLabels]
  | cons l ls ih =>
      have harith : v + 1 + ls.length = v + (ls.length + 1) := by omega
      simp only [List.cons_append, indOfLabels, List.length_cons]
      by_cases h : r = l
      · subst h
        simp [ih, harith]
      · simp [h, ih, harith]

theorem indByRecSpec_flat (v : Nat) (r : Int) (cs : List Cell) :
    indByRecSpec v r cs = indOfLabels v r (cs.flatMap cellLabels) := by
  induction cs generalizing v with
  | nil => rfl
  | cons c cs ih =>
      have hlen : (cellLabels c).length = numInd c := by
        simp [cellLabels, numInd]
        omega
      simp only [indByRecSpec, List.flatMap_cons, indOfLabels_append, hlen, ih]

theorem intOverrides_key_ge (v0 n : Nat) (p : Nat × VarType) (h : p ∈ intOverrides v0 n) :
    v0 ≤ p.1 := by
  simp only [intOverrides, List.mem_map] at h
  obtain ⟨i, hi, rfl⟩ := h
  exact (List.mem_range'_1.mp hi).1

theorem findBest_varType_binary (st : TEDState) (v : Nat)
    (h : v < totalInd (visitedCells st)) :
    varTypeOf (findBestCellLabels st).typeOverrides v = VarType.binary := by
  rw [findBest_typeOverrides]
  unfold varTypeOf
  have hfin : ((intOverrides (splitVar0 st) st.groundTruthLabels.length
        ++ [(splitsIdx st, VarType.integer)]
        ++ intOverrides (mergeVar0 st) st.reconstructionLabels.length
        ++ [(mergesIdx st, VarType.integer)]).reverse.find?
      (fun p => p.1 == v)) = none := by
    apply List.find?_eq_none.mpr
    intro p hp
    rw [List.mem_reverse] at hp
    have hkey : splitVar0 st ≤ p.1 := by
      rcases List.mem_append.mp hp with hp1 | hp4
      · rcases List.mem_append.mp hp1 with hp2 | hp3
        · rcases List.mem_append.mp hp2 with hpa | hpb
          · exact intOverrides_key_ge _ _ p hpa
          · simp at hpb
            simp [hpb, splitsIdx]
        · have := intOverrides_key_ge _ _ p hp3
          simp [mergeVar0, splitsIdx] at this
          omega
      · simp at hp4
        simp [hp4, mergesIdx, mergeVar0, splitsIdx]
        omega
    have hlt : v < splitVar0 st := by
      have : totalInd (visitedCells st) ≤ splitVar0 st := by
        simp [splitVar0]
      omega
    simp
    omega
  rw [hfin]

theorem activationMv_split (mv : Int → Int → Nat) (ind : Int → Int → List Nat)
    (ps : List (Int × Int)) (j : Nat) (h : j < ps.length) :
    activationMv mv ind ps
      = activationMv mv ind (ps.take j)
        ++ pairChunkMv mv ind (ps.get ⟨j, h⟩).1 (ps.get ⟨j, h⟩).2
        ++ activationMv mv ind (ps.drop (j + 1)) := by
  conv_lhs => rw [← List.take_append_drop j ps, List.drop_eq_getElem_cons h]
  simp only [activationMv, List.flatMap_append, List.flatMap_cons, List.append_assoc,
    List.get_eq_getElem]

theorem findBest_constraints_act (st : TEDState) (hnd : (pmPairs st).Nodup) :
    (findBestCellLabels st).constraints
      = coverageSpec 0 (visitedCells st) ++ disappearSpec st
        ++ activationSpec st ++ restPre st := by
  rw [findBest_constraints_pre]
  rw [activationMv_congr (preBuild st).matchVars (matchVarOf st) (indGtRecOf st)
    (pmPairs st) (preBuild_matchVars_pairs st hnd)]
  simp [restPre, activationSpec, List.append_assoc]

/-- C4: `extractCells` raises `SizeMismatch` iff the depths, heights or
widths of the two inputs disagree; when all three agree no exception is
raised (and the voxel pass runs). -/

theorem ted_C4 (gt rec : ImageStack) (st : TEDState) :
    ((extractCells gt rec st).2 = some TedError.sizeMismatch
      ↔ (gt.size ≠ rec.size ∨ gt.height ≠ rec.height ∨ gt.width ≠ rec.width))
    ∧ (gt.size = rec.size → gt.height = rec.height → gt.width = rec.width →
        (extractCells gt rec st).2 = none) := by
  unfold extractCells
  by_cases h1 : gt.size = rec.size <;>
    by_cases h2 : gt.height = rec.height <;>
      by_cases h3 : gt.width = rec.width <;>
        simp [h1, h2, h3]

/-- Witness for C4 at a concrete matching input: no exception. -/

theorem ted_C4_witness : (extractCells gtW gtW initState).2 = none :=
  (ted_C4 gtW gtW initState).2 rfl rfl rfl

/-- C10: if `extractCells` raises, the whole object state is exactly the
state on entry — both dimension checks precede every mutation. -/

theorem ted_C10 (gt rec : ImageStack) (st : TEDState) (e : TedError)
    (h : (extractCells gt rec st).2 = some e) :
    (extractCells gt rec st).1 = st := by
  unfold extractCells at h ⊢
  by_cases h1 : gt.size ≠ rec.size
  · simp [h1]
  · by_cases h2 : gt.height ≠ rec.height ∨ gt.width ≠ rec.width
    · simp [h1, h2]
    · simp [h1, h2] at h

/-- Witness for C10: a depth-mismatched second run on a previously filled
state leaves every field of that state untouched. -/

theorem ted_C10_witness : (extractCells gtBad recBad stW).1 = stW :=
  ted_C10 gtBad recBad stW TedError.sizeMismatch (by decide)

/-- C1 (code bug): with threshold 4, the cell `(rec 1, gt 1)` has maximal
squared distance 4 to the voxels of label 2 — strictly below the squared
threshold 16, so by the claim label 2 must become an alternative — yet
the enumerator, which compares the squared distance against the
unsquared threshold (source line 133), does not add it. -/

theorem ted_C1_bug :
    ∃ c ∈ (enumerateCellLabels 4 stC1).cells,
      c.recLabel = 1 ∧ c.gtLabel = 1
        ∧ c.recLabel ≠ 2
        ∧ maxDistCell (distTo 2 stC1.cells) c < 4 ^ 2
        ∧ (2 : Int) ∉ c.alternativeLabels := by decide

/-- C2 (code bug): on a width-1, height-2 input the extraction succeeds,
yet the in-range voxel `(0,1,0)` is never visited: its label 5 reaches no
cell and no label set, because the inner loop bounds `y` by the width
(source line 65) instead of the height. -/

theorem ted_C2_bug :
    (extractCells gtC2 gtC2 initState).2 = none
    ∧ 0 < (extractCells gtC2 gtC2 initState).1.width
    ∧ 1 < (extractCells gtC2 gtC2 initState).1.height
    ∧ (5 : Int) ∉ (extractCells gtC2 gtC2 initState).1.groundTruthLabels
    ∧ ∀ c ∈ (extractCells gtC2 gtC2 initState).1.cells,
        (⟨0, 1, 0⟩ : Location) ∉ c.locations := by decide

/-- C3 (code bug): after the second run, `PMgt` holds exactly the pair of
the current input, but `PMrec` still holds the stale entry `2 -> {1}` of
the first run — `clearPossibleMatches` (source lines 348-354) never
clears `_possibleReconstructionMatches` — so the two maps are not
symmetric: `1` is in `PMrec(2)` while `2` is not in `PMgt(1)`. -/

theorem ted_C3_bug :
    stC3.possibleGroundTruthMatches = [(3, [4])]
    ∧ stC3.possibleReconstructionMatches = [(2, [1]), (4, [3])]
    ∧ (1 : Int) ∈ pmLookup stC3.possibleReconstructionMatches 2
    ∧ (2 : Int) ∉ pmLookup stC3.possibleGroundTruthMatches 1 := by decide

/-- Counterexample to C9: on the empty input the builder does produce
variables and constraints — the two total counters and their two
equality constraints. -/

theorem ted_C9_cex :
    ¬((findBestCellLabels stEmptyInput).numVars = 0
      ∧ (findBestCellLabels stEmptyInput).constraints = []) := by decide

/-- C9 as amended: on the empty input the builder produces exactly two
variables — the total split counter `S` (index 0) and the total merge
counter `M` (index 1), both integer — and exactly two constraints,
`S = 0` and `M = 0`, with objective `minimize S + M`. -/

theorem ted_C9_amended :
    (findBestCellLabels stEmptyInput).numVars = 2
    ∧ (findBestCellLabels stEmptyInput).constraints
        = [⟨[(0, 1)], Relation.equal, 0⟩, ⟨[(1, 1)], Relation.equal, 0⟩]
    ∧ (findBestCellLabels stEmptyInput).splitsVar = 0
    ∧ (findBestCellLabels stEmptyInput).mergesVar = 1
    ∧ varTypeOf (findBestCellLabels stEmptyInput).typeOverrides 0 = VarType.integer
    ∧ varTypeOf (findBestCellLabels stEmptyInput).typeOverrides 1 = VarType.integer
    ∧ (findBestCellLabels stEmptyInput).objective 0 = 1
    ∧ (findBestCellLabels stEmptyInput).objective 1 = 1
    ∧ (findBestCellLabels stEmptyInput).sense = Sense.minimize := by decide

theorem drop_prefix3 {α : Type} (A B C R : List α) (k : Nat)
    (hk : A.length + B.length + C.length = k) :
    (A ++ (B ++ (C ++ R))).drop k = R := by
  rw [show A ++ (B ++ (C ++ R)) = (A ++ B ++ C) ++ R by simp [List.append_assoc]]
  exact List.drop_left' (by simp [hk]; omega)

theorem drop3_take_block {α : Type} (A B C D R : List α) (k l : Nat)
    (hk : A.length + B.length + C.length = k) (hl : D.length = l) :
    ((A ++ (B ++ (C ++ (D ++ R)))).drop k).take l = D := by
  rw [drop_prefix3 A B C (D ++ R) k hk]
  exact List.take_left' hl

/-- C5: the first block of emitted constraints consists of exactly one
equality constraint per visited cell, summing that cell's own contiguous
block of `1 + alternatives` indicator variables to `1`; and every
indicator variable is binary (never overridden to integer). -/

theorem ted_C5 (st : TEDState) :
    (findBestCellLabels st).constraints.take (visitedCells st).length
        = coverageSpec 0 (visitedCells st)
    ∧ ∀ v, v < totalInd (visitedCells st) →
        varTypeOf (findBestCellLabels st).typeOverrides v = VarType.binary := by
  constructor
  · rw [findBest_constraints_pre]
    simp only [List.append_assoc]
    exact List.take_left' (coverageSpec_length 0 (visitedCells st))
  · intro v hv
    exact findBest_varType_binary st v hv

/-- Witness for C5 on the concrete state `stW`. -/

theorem ted_C5_witness :
    (findBestCellLabels stW).constraints.take (visitedCells stW).length
        = coverageSpec 0 (visitedCells stW)
    ∧ varTypeOf (findBestCellLabels stW).typeOverrides 0 = VarType.binary :=
  ⟨(ted_C5 stW).1, (ted_C5 stW).2 0 (by decide)⟩

/-- C6: the j-th constraint after the coverage block requires the sum of
every indicator variable whose assigned label is the j-th reconstruction
label — across all cells, alternative assignments included — to be at
least 1; the summed variables are exactly the positions of that label in
the flattened assigned-label list. -/

theorem ted_C6 (st : TEDState) (j : Nat) (h : j < st.reconstructionLabels.length) :
    (findBestCellLabels st).constraints[(visitedCells st).length + j]?
      = some ⟨(indByRecSpec 0 (st.reconstructionLabels.get ⟨j, h⟩) (visitedCells st)).map
            (fun v => ((v : Nat), (1 : Int))),
          Relation.greaterEqual, 1⟩
    ∧ indByRecSpec 0 (st.reconstructionLabels.get ⟨j, h⟩) (visitedCells st)
        = indOfLabels 0 (st.reconstructionLabels.get ⟨j, h⟩)
            ((visitedCells st).flatMap cellLabels) := by
  refine ⟨?_, indByRecSpec_flat 0 _ _⟩
  rw [findBest_constraints_pre]
  simp only [List.append_assoc]
  have hc : (coverageSpec 0 (visitedCells st)).length = (visitedCells st).length :=
    coverageSpec_length 0 (visitedCells st)
  rw [List.getElem?_append_right (by rw [hc]; omega)]
  rw [hc]
  have hidx : (visitedCells st).length + j - (visitedCells st).length = j := by omega
  rw [hidx]
  have hj : j < (disappearSpec st).length := by rw [disappearSpec_length]; exact h
  rw [List.getElem?_append, if_pos hj]
  simp [disappearSpec, List.getElem?_eq_getElem h]

/-- Witness for C6 on `stW` at index 0: the first disappear constraint
sums indicator variables 0 and 3 (label 1 as default of the first cell
and as alternative of the second). -/

theorem ted_C6_witness :
    (findBestCellLabels stW).constraints[(visitedCells stW).length + 0]?
      = some ⟨[(0, 1), (3, 1)], Relation.greaterEqual, 1⟩ :=
  ((ted_C6 stW 0 (by decide)).1).trans (by decide)

/-- C7: after the coverage, disappear and match-activation blocks the
builder emits, per ground-truth label, `s[g] >= 0` and
`s[g] - sum of the matches of g = -1`, then the total
`S - sum of the s[g] = 0`, then the merge counterparts; the objective
puts coefficient 1 on `S` and on `M`, 0 on every other variable, and
minimizes. -/

theorem ted_C7 (st : TEDState) (hnd : (pmPairs st).Nodup)
    (hsym : ∀ r ∈ st.reconstructionLabels,
      ∀ g ∈ pmLookup st.possibleReconstructionMatches r, (g, r) ∈ pmPairs st) :
    ((findBestCellLabels st).constraints.drop (preSplitLen st)
        = splitSpecL st ++ [sumSplitsSpec st] ++ mergeSpecL st ++ [sumMergesSpec st])
    ∧ (findBestCellLabels st).objective (splitsIdx st) = 1
    ∧ (findBestCellLabels st).objective (mergesIdx st) = 1
    ∧ (∀ v, v ≠ splitsIdx st → v ≠ mergesIdx st → (findBestCellLabels st).objective v = 0)
    ∧ (findBestCellLabels st).sense = Sense.minimize := by
  refine ⟨?_, ?_, ?_, ?_, rfl⟩
  · rw [findBest_constraints_spec st hnd hsym]
    simp only [List.append_assoc]
    exact drop_prefix3 _ _ _ _ _
      (by simp [preSplitLen, coverageSpec_length, disappearSpec_length])
  · rw [findBest_objective]
    by_cases hsm : splitsIdx st = mergesIdx st <;> simp [setObjCoef, hsm]
  · rw [findBest_objective]
    simp [setObjCoef]
  · intro v h1 h2
    rw [findBest_objective]
    simp [setObjCoef, h1, h2]

/-- Witness for C7 on the concrete state `stW`. -/

theorem ted_C7_witness :
    ((findBestCellLabels stW).constraints.drop (preSplitLen stW)
        = splitSpecL stW ++ [sumSplitsSpec stW] ++ mergeSpecL stW ++ [sumMergesSpec stW])
    ∧ (findBestCellLabels stW).objective (splitsIdx stW) = 1 :=
  ⟨(ted_C7 stW (by decide) (by decide)).1, (ted_C7 stW (by decide) (by decide)).2.1⟩

/-- C8: for the j-th possible-match pair `(g, r)`, the builder emits — at
the position following all earlier activation chunks — exactly one
constraint `m[g,r] - v >= 0` for each indicator variable `v` assigning a
cell of ground-truth label `g` the label `r`, followed by the one closing
constraint `(sum of those v) - m[g,r] >= 0`. -/

theorem ted_C8 (st : TEDState) (hnd : (pmPairs st).Nodup) (j : Nat)
    (h : j < (pmPairs st).length) :
    (((findBestCellLabels st).constraints.drop
        ((visitedCells st).length + st.reconstructionLabels.length + actLenBefore st j)).take
        ((indGtRecOf st ((pmPairs st).get ⟨j, h⟩).1 ((pmPairs st).get ⟨j, h⟩).2).length + 1))
      = pairChunkMv (matchVarOf st) (indGtRecOf st)
          ((pmPairs st).get ⟨j, h⟩).1 ((pmPairs st).get ⟨j, h⟩).2 := by
  rw [findBest_constraints_act st hnd]
  simp only [activationSpec]
  rw [activationMv_split (matchVarOf st) (indGtRecOf st) (pmPairs st) j h]
  simp only [List.append_assoc]
  exact drop3_take_block _ _ _ _ _ _ _
    (by simp [coverageSpec_length, disappearSpec_length, actLenBefore])
    (pairChunkMv_length _ _ _ _)

/-- Witness for C8 on `stW` at pair index 1 (the pair `(1, 2)`). -/
theorem ted_C8_witness :
    (((findBestCellLabels stW).constraints.drop
        ((visitedCells stW).length + stW.reconstructionLabels.length + actLenBefore stW 1)).take
        ((indGtRecOf stW ((pmPairs stW).get ⟨1, by decide⟩).1
          ((pmPairs stW).get ⟨1, by decide⟩).2).length + 1))
      = pairChunkMv (matchVarOf stW) (indGtRecOf stW)
          ((pmPairs stW).get ⟨1, by decide⟩).1 ((pmPairs stW).get ⟨1, by decide⟩).2 :=
  ted_C8 stW (by decide) 1 (by decide)
